import Mathlib

/-!
# pg2kafka: the record encoder and the delivery loop of `main.go`

A shallow embedding of `src/main.go`: the data types `rentalBookingKey` and
`rentalBooking`, the method `ToStringMap`, the function `encode`, and the row
loop of the worker goroutine started by `main`, followed by the theorems about
them.

Conventions of the embedding.

* A Go `string` is an immutable byte sequence: `GoString := List Byte`.
* A Go `float64` is carried, never computed on; it is represented by its
  IEEE-754 bit pattern, a number below `2^64`, so that equality is equality
  bit for bit.
* The two counters `enqueued` and `errors` are Go `int`s that go up by one at
  most once per pulled row; they are represented by `Nat` (a wrap-around would
  need `2^63` rows).
* `interface{}` values that the program builds are represented by `Native`.
* The libraries that `main.go` imports (`database/sql`, `goavro`, `structs`,
  `sarama`) are not part of the repository. `encode` takes the Avro library as
  a parameter; the instance `goavro.library` follows the Avro binary encoding.
* The `select` of the worker is resolved by a schedule: the list of the arms
  that are ready first, one per iteration. `main` receives from `doneCh` once
  and reads the tally at that moment.
-/

namespace Pg2Kafka

/-! ## Go values -/

/-- One byte. -/
abbrev Byte := Fin 256

/-- Go `string`: a sequence of bytes. -/
abbrev GoString := List Byte

/-- Go `bool`. -/
abbrev GoBool := Bool

/-- Go `float64`, as its IEEE-754 bit pattern. -/
abbrev float64 := Fin 18446744073709551616

/-- Go `error` values are represented by their message. -/
abbrev Error := String

/-- The `interface{}` values built by the program: `nil`, a `bool`, a
`float64`, a `string`, or a `map[string]interface{}` with the single entry
`name ↦ datum` (what `goavro.Union` returns for a non-null arm). -/
inductive Native where
  | nil : Native
  | bool (b : GoBool) : Native
  | float64 (f : float64) : Native
  | string (s : GoString) : Native
  | map (name : String) (datum : Native) : Native
deriving DecidableEq, Repr

/-- A Go `map[string]interface{}`: each key occurs at most once in `entries`
when the map is built with `GoMap.set` from `GoMap.empty`. -/
structure GoMap where
  entries : List (String × Native)
deriving DecidableEq, Repr

namespace GoMap

/-- Result of `make(map[string]interface{})`. -/
def empty : GoMap := ⟨[]⟩

/-- Lookup `m[k]` with the comma-ok result: `none` when the key is absent. -/
def get (m : GoMap) (k : String) : Option Native :=
  m.entries.lookup k

/-- Assignment `m[k] = v`: overwrites the entry of `k` or adds one. -/
def set (m : GoMap) (k : String) (v : Native) : GoMap :=
  if (m.entries.lookup k).isSome then
    ⟨m.entries.map fun e => if e.1 = k then (k, v) else e⟩
  else
    ⟨m.entries ++ [(k, v)]⟩

/-- The keys of the map. -/
def keys (m : GoMap) : List String :=
  m.entries.map Prod.fst

end GoMap

/-! ## `database/sql` nullable values -/

/-- Modelled from the spec: the type `sql.NullBool` of Go's `database/sql`,
which is not in the repository: an optional bool, as a value and a validity
flag. -/
structure NullBool where
  Bool : GoBool
  Valid : GoBool
deriving DecidableEq, Repr

/-- Modelled from the spec: the type `sql.NullFloat64` of Go's `database/sql`,
which is not in the repository: an optional double. -/
structure NullFloat64 where
  Float64 : float64
  Valid : GoBool
deriving DecidableEq, Repr

/-- Modelled from the spec: the type `sql.NullString` of Go's `database/sql`,
which is not in the repository: an optional string. -/
structure NullString where
  String : GoString
  Valid : GoBool
deriving DecidableEq, Repr

/-- Modelled from the spec: the method `sql.NullBool.Value` of Go's
`database/sql`, which is not in the repository: `(nil, nil)` when the value is
absent, else the stored bool; the error result is always nil. -/
def NullBool.Value (n : NullBool) : Native × Option Error :=
  if !n.Valid then (Native.nil, none) else (Native.bool n.Bool, none)

/-- Modelled from the spec: the method `sql.NullFloat64.Value` of Go's
`database/sql`, which is not in the repository: `nil` when the value is absent,
else the stored double. -/
def NullFloat64.Value (n : NullFloat64) : Native × Option Error :=
  if !n.Valid then (Native.nil, none) else (Native.float64 n.Float64, none)

/-- Modelled from the spec: the method `sql.NullString.Value` of Go's
`database/sql`, which is not in the repository: `nil` when the value is absent,
else the stored string. -/
def NullString.Value (n : NullString) : Native × Option Error :=
  if !n.Valid then (Native.nil, none) else (Native.string n.String, none)

/-! ## The domain records (`main.go`, lines 46-57) -/

/-- Go struct `rentalBookingKey`; the struct tags name the map keys
`provider`, `provider_uid`, `date`. -/
structure rentalBookingKey where
  Provider : GoString
  ProviderUID : GoString
  Date : GoString
deriving DecidableEq, Repr

/-- Go struct `rentalBooking`. -/
structure rentalBooking where
  IsBooked : NullBool
  Price : NullFloat64
  BookedPrice : NullFloat64
  PriceSource : NullString
deriving DecidableEq, Repr

/-- Modelled from the spec: the function `goavro.Union` of the external Avro
library, which is not in the repository: the null arm carries no value and is
`nil`; any other arm is the single-entry map `name ↦ datum`. -/
def Union (name : String) (datum : Native) : Native :=
  if datum = Native.nil ∧ name = "null" then Native.nil else Native.map name datum

/-- Method `rentalBooking.ToStringMap` (`main.go`, lines 59-91). -/
def rentalBooking.ToStringMap (rb : rentalBooking) : GoMap :=
  let datumIn := GoMap.empty
  let isBooked := rb.IsBooked.Value.1
  let datumIn :=
    if isBooked = Native.nil then datumIn.set "is_booked" (Union "null" Native.nil)
    else datumIn.set "is_booked" (Union "boolean" isBooked)
  let price := rb.Price.Value.1
  let datumIn :=
    if price = Native.nil then datumIn.set "price" (Union "null" Native.nil)
    else datumIn.set "price" (Union "double" price)
  let bookedPrice := rb.BookedPrice.Value.1
  let datumIn :=
    if bookedPrice = Native.nil then datumIn.set "booked_price" (Union "null" Native.nil)
    else datumIn.set "booked_price" (Union "double" bookedPrice)
  let source := rb.PriceSource.Value.1
  let datumIn :=
    if source = Native.nil then datumIn.set "price_source" (Union "null" Native.nil)
    else datumIn.set "price_source" (Union "string" source)
  datumIn

/-- The entry that the claim expects for an optional boolean. -/
def boolArm (n : NullBool) : Native :=
  if n.Valid then Native.map "boolean" (Native.bool n.Bool) else Native.nil

/-- The entry that the claim expects for an optional double. -/
def doubleArm (n : NullFloat64) : Native :=
  if n.Valid then Native.map "double" (Native.float64 n.Float64) else Native.nil

/-- The entry that the claim expects for an optional string. -/
def stringArm (n : NullString) : Native :=
  if n.Valid then Native.map "string" (Native.string n.String) else Native.nil

/-! ## Avro schemas

The two schema constants of `main.go` (lines 19-43) are JSON texts; they are
represented by the record schemas those texts denote. Only the shapes that
occur in them are represented: a record whose fields are a primitive type or
a union of primitive types, with an optional default. -/

/-- Avro primitive types used by the two schemas. -/
inductive Prim where
  | null | boolean | double | string
deriving DecidableEq, Repr

/-- The Avro type name of a primitive type. -/
def Prim.typeName : Prim → String
  | Prim.null => "null"
  | Prim.boolean => "boolean"
  | Prim.double => "double"
  | Prim.string => "string"

/-- The type of a record field: a primitive type or a union of them. -/
inductive FieldType where
  | prim (t : Prim) : FieldType
  | union (arms : List Prim) : FieldType
deriving DecidableEq, Repr

/-- A record field; `default` is `none` when the JSON has no `"default"`, and
`some Native.nil` for `"default": null`. -/
structure Field where
  name : String
  type : FieldType
  default : Option Native
deriving DecidableEq, Repr

/-- An Avro record schema. -/
structure Schema where
  name : String
  ns : String
  fields : List Field
deriving DecidableEq, Repr

/-- Constant `rentalBookingKeySchema`: record `Key` in namespace
`io.github.ajurasz` with the string fields `provider`, `provider_uid`,
`date`. -/
def rentalBookingKeySchema : Schema :=
  ⟨"Key", "io.github.ajurasz",
    [⟨"provider", FieldType.prim Prim.string, none⟩,
     ⟨"provider_uid", FieldType.prim Prim.string, none⟩,
     ⟨"date", FieldType.prim Prim.string, none⟩]⟩

/-- Constant `rentalBookingSchema`: record `Payload` in namespace
`io.github.ajurasz` with four fields of type `["null", T]` and default
`null`. -/
def rentalBookingSchema : Schema :=
  ⟨"Payload", "io.github.ajurasz",
    [⟨"is_booked", FieldType.union [Prim.null, Prim.boolean], some Native.nil⟩,
     ⟨"price", FieldType.union [Prim.null, Prim.double], some Native.nil⟩,
     ⟨"booked_price", FieldType.union [Prim.null, Prim.double], some Native.nil⟩,
     ⟨"price_source", FieldType.union [Prim.null, Prim.string], some Native.nil⟩]⟩

/-! ## The encoder (`main.go`, lines 93-116) -/

/-- The part of the Avro library that `encode` calls, as a parameter:
`NewCodec` and the method `BinaryFromNative` (always called with a nil
buffer). `encode` is embedded over an arbitrary such library, so that each of
its four error branches can be exercised. -/
structure AvroLibrary where
  Codec : Type
  NewCodec : Schema → Except Error Codec
  BinaryFromNative : Codec → GoMap → Except Error (List Byte)

namespace structs

/-- Modelled from the spec: the function `structs.Map` of the external library
`fatih/structs`, which is not in the repository, at a `rentalBookingKey`: the
key fields by name, one entry per field, named by the field's `structs`
tag. -/
def Map (key : rentalBookingKey) : GoMap :=
  ((GoMap.empty.set "provider" (Native.string key.Provider)).set
    "provider_uid" (Native.string key.ProviderUID)).set "date" (Native.string key.Date)

end structs

/-- The three results of `encode`: the key bytes, the payload bytes and the
error; `none` is Go's `nil`. -/
structure EncodeResult where
  keyBB : Option (List Byte)
  payloadBB : Option (List Byte)
  err : Option Error
deriving DecidableEq, Repr

/-- Function `encode` (`main.go`, lines 93-116). -/
def encode (lib : AvroLibrary) (key : rentalBookingKey) (payload : rentalBooking) :
    EncodeResult :=
  match lib.NewCodec rentalBookingSchema with
  | Except.error err => ⟨none, none, some err⟩
  | Except.ok payloadCodec =>
    match lib.NewCodec rentalBookingKeySchema with
    | Except.error err => ⟨none, none, some err⟩
    | Except.ok keyCodec =>
      match lib.BinaryFromNative payloadCodec payload.ToStringMap with
      | Except.error err => ⟨none, none, some err⟩
      | Except.ok payloadBB =>
        match lib.BinaryFromNative keyCodec (structs.Map key) with
        | Except.error err => ⟨none, none, some err⟩
        | Except.ok keyBB => ⟨some keyBB, some payloadBB, none⟩

/-! ## The Avro codec

The codec is the external library `goavro`; its source is not part of the
repository. The definitions of this section follow the binary format that the
specification fixes for the two schemas (the Avro binary encoding: a record is
the concatenation of its fields in schema order, a union is the position of
the arm followed by the arm's value, `null` is empty, a boolean is one byte, a
double is eight little-endian bytes, a string is its length followed by its
bytes, a length or position is a zig-zag base-128 varint). -/

namespace goavro

/-- Modelled from the spec: the varint loop of the library's long encoder,
which is not in the repository; `fuel` bounds the number of 7-bit groups. -/
def varint : Nat → Nat → List Byte
  | 0, _ => []
  | fuel + 1, encoded =>
    if encoded / 128 = 0 then [Fin.ofNat (encoded % 128)]
    else Fin.ofNat (encoded % 128 + 128) :: varint fuel (encoded / 128)

/-- Modelled from the spec: the library's encoder of an Avro `long`, which is
not in the repository, at a non-negative value (a union position or a string
length): the zig-zag code of `value` is `2 * value`, written as a varint. The
fuel `2 * value + 1` is more than the number of 7-bit groups. -/
def longBinaryFromNative (value : Nat) : List Byte :=
  varint (2 * value + 1) (2 * value)

/-- Modelled from the spec: the loop of the library's long decoder, which is
not in the repository: accumulates 7-bit groups until a byte without the
continuation bit. -/
def unvarint : List Byte → Nat → Nat → Except Error (Nat × List Byte)
  | [], _, _ => Except.error "short buffer"
  | b :: buf, shift, value =>
    let value := value + (b.val % 128) * 2 ^ shift
    if b.val / 128 = 0 then Except.ok (value, buf) else unvarint buf (shift + 7) value

/-- Modelled from the spec: the library's decoder of an Avro `long`, which is
not in the repository: reads a varint and undoes the zig-zag code. -/
def longNativeFromBinary (buf : List Byte) : Except Error (Int × List Byte) :=
  match unvarint buf 0 0 with
  | Except.error e => Except.error e
  | Except.ok (value, rest) =>
    Except.ok (if value % 2 = 0 then ((value / 2 : Nat) : Int) else -(((value + 1) / 2 : Nat) : Int),
      rest)

/-- Modelled from the spec: the eight little-endian bytes of a double's bit
pattern. -/
def doubleBytes (f : float64) : List Byte :=
  [Fin.ofNat f.val, Fin.ofNat (f.val / 256), Fin.ofNat (f.val / 65536),
   Fin.ofNat (f.val / 16777216), Fin.ofNat (f.val / 4294967296),
   Fin.ofNat (f.val / 1099511627776), Fin.ofNat (f.val / 281474976710656),
   Fin.ofNat (f.val / 72057594037927936)]

/-- Modelled from the spec: the library's encoder of a primitive type, which is
not in the repository: fails when the datum's runtime type is not the type of
the schema. -/
def primBinaryFromNative : Prim → Native → Except Error (List Byte)
  | Prim.null, Native.nil => Except.ok []
  | Prim.boolean, Native.bool b => Except.ok [if b then 1 else 0]
  | Prim.double, Native.float64 f => Except.ok (doubleBytes f)
  | Prim.string, Native.string s => Except.ok (longBinaryFromNative s.length ++ s)
  | _, _ => Except.error "cannot encode binary: datum does not match the schema type"

/-- Modelled from the spec: the library's decoder of a primitive type, which is
not in the repository. -/
def primNativeFromBinary : Prim → List Byte → Except Error (Native × List Byte)
  | Prim.null, buf => Except.ok (Native.nil, buf)
  | Prim.boolean, [] => Except.error "short buffer"
  | Prim.boolean, b :: buf =>
    if b.val = 0 then Except.ok (Native.bool false, buf)
    else if b.val = 1 then Except.ok (Native.bool true, buf)
    else Except.error "cannot decode binary boolean: expected 0 or 1"
  | Prim.double, b0 :: b1 :: b2 :: b3 :: b4 :: b5 :: b6 :: b7 :: buf =>
    Except.ok (Native.float64 (Fin.ofNat (b0.val + 256 * (b1.val + 256 * (b2.val + 256 *
      (b3.val + 256 * (b4.val + 256 * (b5.val + 256 * (b6.val + 256 * b7.val)))))))), buf)
  | Prim.double, _ => Except.error "short buffer"
  | Prim.string, buf =>
    match longNativeFromBinary buf with
    | Except.error e => Except.error e
    | Except.ok (size, rest) =>
      if size < 0 then Except.error "cannot decode binary bytes: negative size"
      else if (rest.length : Int) < size then Except.error "short buffer"
      else Except.ok (Native.string (rest.take size.toNat), rest.drop size.toNat)

/-- Modelled from the spec: the library's table from type names to union
arms, which is not in the repository: the position and the type of the arm
with the given name. -/
def armIndex (arms : List Prim) (name : String) : Option (Nat × Prim) :=
  arms.enum.find? (fun p => p.2.typeName = name)

/-- Modelled from the spec: the library's encoder of a field value, which is
not in the repository. A union takes `nil` for its `null` arm and a
single-entry map `name ↦ datum` for the arm called `name`, and writes the
arm's position before the value. -/
def fieldBinaryFromNative : FieldType → Native → Except Error (List Byte)
  | FieldType.prim t, datum => primBinaryFromNative t datum
  | FieldType.union arms, Native.nil =>
    match armIndex arms "null" with
    | none => Except.error "cannot encode binary union: no member schema types support datum"
    | some (index, _) => Except.ok (longBinaryFromNative index)
  | FieldType.union arms, Native.map name datum =>
    match armIndex arms name with
    | none => Except.error "cannot encode binary union: no member schema types support datum"
    | some (index, t) =>
      match primBinaryFromNative t datum with
      | Except.error e => Except.error e
      | Except.ok bytes => Except.ok (longBinaryFromNative index ++ bytes)
  | FieldType.union _, _ =>
    Except.error "cannot encode binary union: non-nil values ought to be a single-entry map"

/-- Modelled from the spec: the library's decoder of a field value, which is
not in the repository: a union value other than `nil` is wrapped by
`Union`. -/
def fieldNativeFromBinary : FieldType → List Byte → Except Error (Native × List Byte)
  | FieldType.prim t, buf => primNativeFromBinary t buf
  | FieldType.union arms, buf =>
    match longNativeFromBinary buf with
    | Except.error e => Except.error e
    | Except.ok (index, rest) =>
      if index < 0 then Except.error "cannot decode binary union: index out of range"
      else
        match arms.get? index.toNat with
        | none => Except.error "cannot decode binary union: index out of range"
        | some t =>
          match primNativeFromBinary t rest with
          | Except.error e => Except.error e
          | Except.ok (decoded, rest) =>
            if decoded = Native.nil then Except.ok (Native.nil, rest)
            else Except.ok (Union t.typeName decoded, rest)

/-- Modelled from the spec: the library's record encoder, which is not in the
repository: the fields in schema order, each taken from the map or, when the
map has no such key, from the field's default. -/
def fieldsBinaryFromNative : List Field → GoMap → Except Error (List Byte)
  | [], _ => Except.ok []
  | f :: fields, datum =>
    match (match datum.get f.name with
           | some v => some v
           | none => f.default) with
    | none => Except.error "cannot encode binary record: no value and no default for a field"
    | some fieldValue =>
      match fieldBinaryFromNative f.type fieldValue with
      | Except.error e => Except.error e
      | Except.ok bytes =>
        match fieldsBinaryFromNative fields datum with
        | Except.error e => Except.error e
        | Except.ok rest => Except.ok (bytes ++ rest)

/-- Modelled from the spec: the library's record decoder, which is not in the
repository: decodes the fields in schema order into a map. -/
def fieldsNativeFromBinary : List Field → GoMap → List Byte → Except Error (GoMap × List Byte)
  | [], recordMap, buf => Except.ok (recordMap, buf)
  | f :: fields, recordMap, buf =>
    match fieldNativeFromBinary f.type buf with
    | Except.error e => Except.error e
    | Except.ok (value, rest) => fieldsNativeFromBinary fields (recordMap.set f.name value) rest

/-- Modelled from the spec: the library's type `Codec`, which is not in the
repository: a codec is determined by its schema. -/
structure Codec where
  schema : Schema
deriving DecidableEq, Repr

/-- Modelled from the spec: the checks of the library's schema compiler, which
is not in the repository, on a field: it has a name, a union has at least one
arm and no arm twice, and a default encodes under the field's type (for a
union, under its first arm). -/
def fieldOk (f : Field) : Bool :=
  f.name ≠ "" &&
  (match f.type with
   | FieldType.prim _ => true
   | FieldType.union arms => arms ≠ [] && decide arms.Nodup) &&
  (match f.default, f.type with
   | none, _ => true
   | some d, FieldType.prim t => (primBinaryFromNative t d).toBool
   | some d, FieldType.union arms =>
     match arms.head? with
     | none => false
     | some t => (primBinaryFromNative t d).toBool)

/-- Modelled from the spec: `goavro.NewCodec`, which is not in the repository:
a record schema compiles when it has a name, at least one field, no field name
twice, and every field is well formed. -/
def NewCodec (schema : Schema) : Except Error Codec :=
  if schema.name = "" then Except.error "Record ought to have valid name"
  else if schema.fields = [] then Except.error "Record fields ought to be non-empty array"
  else if ¬ (schema.fields.map Field.name).Nodup then
    Except.error "Record field ought to have unique name"
  else if schema.fields.all fieldOk then Except.ok ⟨schema⟩
  else Except.error "Record field ought to be valid Avro named type"

/-- Modelled from the spec: method `Codec.BinaryFromNative` with a nil buffer,
which is not in the repository. -/
def BinaryFromNative (c : Codec) (datum : GoMap) : Except Error (List Byte) :=
  fieldsBinaryFromNative c.schema.fields datum

/-- Modelled from the spec: method `Codec.NativeFromBinary`, which is not in
the repository: the decoded map and the bytes left over. -/
def NativeFromBinary (c : Codec) (buf : List Byte) : Except Error (GoMap × List Byte) :=
  fieldsNativeFromBinary c.schema.fields GoMap.empty buf

/-- Modelled from the spec: the library `goavro` as `encode` sees it. -/
def library : AvroLibrary :=
  ⟨Codec, NewCodec, BinaryFromNative⟩

end goavro

/-- Decoding of key bytes with the key schema: the codec of
`rentalBookingKeySchema` applied to the bytes. The program has no decoder; this
is the reader that the round-trip claim speaks of. -/
def decodeKey (keyBB : List Byte) : Except Error (GoMap × List Byte) :=
  match goavro.NewCodec rentalBookingKeySchema with
  | Except.error e => Except.error e
  | Except.ok codec => goavro.NativeFromBinary codec keyBB

/-- Decoding of payload bytes with the payload schema. -/
def decodePayload (payloadBB : List Byte) : Except Error (GoMap × List Byte) :=
  match goavro.NewCodec rentalBookingSchema with
  | Except.error e => Except.error e
  | Except.ok codec => goavro.NativeFromBinary codec payloadBB

/-! ## The worker goroutine (`main.go`, lines 144-202)

The row loop is embedded as a function of the cursor (the list of rows still
to come) and of the schedule: the list of `select` arms that become ready
first, one per iteration that reaches the `select`. The worker's effects are
kept in its state: the two counters, the messages received by the producer's
input channel, the log lines, and what `main` reported after receiving from
`doneCh`. Two history variables, `pulled` and `taken`, record the rows returned
by the cursor and the arm taken with each row. -/

/-- Constant `kafkaTopic`. -/
def kafkaTopic : String := "test"

/-- Modelled from the spec: a column value of the cursor as the scan of
`database/sql`, which is not in the repository, treats it for a given
destination: SQL `NULL`, a value that converts to the destination's type (given
as converted), or a value that does not convert to it. -/
inductive Cell (α : Type) where
  | null : Cell α
  | value (a : α) : Cell α
  | unconvertible : Cell α
deriving DecidableEq, Repr

/-- One row of the primary query, by column name; each column as it converts
to the type of the destination that `rows.Scan` pairs it with. -/
structure BookingRow where
  rental_property_id : Cell GoString
  is_booked : Cell GoBool
  booking_date : Cell GoString
  asking_price : Cell float64
  actual_price : Cell float64
  price_source : Cell GoString
deriving DecidableEq, Repr

/-- The columns of a row in the order of the select list of the primary query:
`SELECT rental_property_id, is_booked, booking_date, asking_price, actual_price,
price_source FROM rental_bookings`. -/
def selectList (r : BookingRow) :
    Cell GoString × Cell GoBool × Cell GoString × Cell float64 × Cell float64 × Cell GoString :=
  (r.rental_property_id, r.is_booked, r.booking_date, r.asking_price, r.actual_price,
    r.price_source)

/-- The three variables declared at the top of the loop body. -/
structure Scanned where
  rentalPropertyID : GoString
  rentalBookingKey : rentalBookingKey
  rentalBooking : rentalBooking
deriving DecidableEq, Repr

/-- The zero values of the three variables, as the declarations at the top
of the loop body leave them in every iteration. -/
def Scanned.zero : Scanned :=
  { rentalPropertyID := []
    rentalBookingKey := { Provider := [], ProviderUID := [], Date := [] }
    rentalBooking :=
      { IsBooked := ⟨false, false⟩, Price := ⟨0, false⟩, BookedPrice := ⟨0, false⟩,
        PriceSource := ⟨[], false⟩ } }

/-- Modelled from the spec: the assignment of a column to a `*string`
destination by `database/sql`, which is not in the repository: `NULL` and a
value that does not convert are errors and leave the destination as it
was. -/
def scanString (dest : GoString) (src : Cell GoString) : GoString × Option Error :=
  match src with
  | Cell.null => (dest, some "converting NULL to string is unsupported")
  | Cell.value s => (s, none)
  | Cell.unconvertible => (dest, some "unsupported Scan, storing driver.Value into type *string")

/-- Modelled from the spec: the method `sql.NullBool.Scan` of `database/sql`,
which is not in the repository: `NULL` gives the absent value; otherwise
`Valid` is set and the value is converted into `Bool`, which keeps its old
content when the conversion fails. -/
def NullBool.Scan (n : NullBool) (src : Cell GoBool) : NullBool × Option Error :=
  match src with
  | Cell.null => (⟨false, false⟩, none)
  | Cell.value b => (⟨b, true⟩, none)
  | Cell.unconvertible => (⟨n.Bool, true⟩, some "sql/driver: couldn't convert to bool")

/-- Modelled from the spec: the method `sql.NullFloat64.Scan` of
`database/sql`, which is not in the repository. -/
def NullFloat64.Scan (n : NullFloat64) (src : Cell float64) : NullFloat64 × Option Error :=
  match src with
  | Cell.null => (⟨0, false⟩, none)
  | Cell.value f => (⟨f, true⟩, none)
  | Cell.unconvertible => (⟨n.Float64, true⟩, some "converting driver.Value to a float64 failed")

/-- Modelled from the spec: the method `sql.NullString.Scan` of `database/sql`,
which is not in the repository. -/
def NullString.Scan (n : NullString) (src : Cell GoString) : NullString × Option Error :=
  match src with
  | Cell.null => (⟨[], false⟩, none)
  | Cell.value s => (⟨s, true⟩, none)
  | Cell.unconvertible =>
    (⟨n.String, true⟩, some "unsupported Scan, storing driver.Value into type *string")

/-- Modelled from the spec: the loop of `Rows.Scan` in `database/sql`, which is
not in the repository: the columns are assigned to their destinations in order,
and the first assignment that fails ends the scan with its error, so that the
destinations after it are not assigned. -/
def scanAll : List (Scanned → Scanned × Option Error) → Scanned → Scanned × Option Error
  | [], v => (v, none)
  | assign :: rest, v =>
    match assign v with
    | (v, some err) => (v, some ("sql: Scan error on column: " ++ err))
    | (v, none) => scanAll rest v

/-- The call `rows.Scan(&rentalPropertyID, &rentalBooking.IsBooked,
&rentalBookingKey.Date, &rentalBooking.BookedPrice, &rentalBooking.Price,
&rentalBooking.PriceSource)` (`main.go`, lines 158-164) on the variables `v`:
column `i` goes to destination `i`. The result is the variables after the call
and the error that the call returns. -/
def Scan (columns :
    Cell GoString × Cell GoBool × Cell GoString × Cell float64 × Cell float64 × Cell GoString)
    (v : Scanned) : Scanned × Option Error :=
  match columns with
  | (c0, c1, c2, c3, c4, c5) =>
    scanAll [
      (fun v => ({ v with rentalPropertyID := (scanString v.rentalPropertyID c0).1 },
        (scanString v.rentalPropertyID c0).2)),
      (fun v => ({ v with rentalBooking :=
          { v.rentalBooking with IsBooked := (v.rentalBooking.IsBooked.Scan c1).1 } },
        (v.rentalBooking.IsBooked.Scan c1).2)),
      (fun v => ({ v with rentalBookingKey :=
          { v.rentalBookingKey with Date := (scanString v.rentalBookingKey.Date c2).1 } },
        (scanString v.rentalBookingKey.Date c2).2)),
      (fun v => ({ v with rentalBooking :=
          { v.rentalBooking with BookedPrice := (v.rentalBooking.BookedPrice.Scan c3).1 } },
        (v.rentalBooking.BookedPrice.Scan c3).2)),
      (fun v => ({ v with rentalBooking :=
          { v.rentalBooking with Price := (v.rentalBooking.Price.Scan c4).1 } },
        (v.rentalBooking.Price.Scan c4).2)),
      (fun v => ({ v with rentalBooking :=
          { v.rentalBooking with PriceSource := (v.rentalBooking.PriceSource.Scan c5).1 } },
        (v.rentalBooking.PriceSource.Scan c5).2))] v

/-- The per-row lookup `SELECT provider, provider_uid FROM rental_properties
WHERE id = $1` as a function of the id: the two columns, or the error of
`QueryRow(...).Scan` (for instance when no such property exists). -/
abbrev Lookup := GoString → Except Error (GoString × GoString)

/-- Row-to-record assembly (`main.go`, lines 155-172): the scan of the row
into the freshly declared variables, whose error the program discards, followed
by the lookup that fills `Provider` and `ProviderUID`. -/
def assemble (QueryRow : Lookup) (r : BookingRow) :
    Except Error (rentalBookingKey × rentalBooking) :=
  let v := (Scan (selectList r) Scanned.zero).1
  match QueryRow v.rentalPropertyID with
  | Except.error err => Except.error err
  | Except.ok (provider, providerUID) =>
    Except.ok ({ v.rentalBookingKey with Provider := provider, ProviderUID := providerUID },
      v.rentalBooking)

/-- The relation that positional assembly puts between a row, the lookup and
the assembled record: `booked_price` holds the column `asking_price` and
`price` the column `actual_price`, `is_booked` and `price_source` hold the
columns of their name (a value as present, `NULL` as absent), the key's date is
`booking_date`, and the key's provider and provider_uid are the result of the
lookup by `rental_property_id`. -/
def positional (QueryRow : Lookup) (r : BookingRow) (key : rentalBookingKey)
    (payload : rentalBooking) : Prop :=
  (∀ f, r.asking_price = Cell.value f → payload.BookedPrice = ⟨f, true⟩) ∧
  (r.asking_price = Cell.null → payload.BookedPrice.Valid = false) ∧
  (∀ f, r.actual_price = Cell.value f → payload.Price = ⟨f, true⟩) ∧
  (r.actual_price = Cell.null → payload.Price.Valid = false) ∧
  (∀ b, r.is_booked = Cell.value b → payload.IsBooked = ⟨b, true⟩) ∧
  (r.is_booked = Cell.null → payload.IsBooked.Valid = false) ∧
  (∀ s, r.price_source = Cell.value s → payload.PriceSource = ⟨s, true⟩) ∧
  (r.price_source = Cell.null → payload.PriceSource.Valid = false) ∧
  r.booking_date = Cell.value key.Date ∧
  ∃ id, r.rental_property_id = Cell.value id ∧
    QueryRow id = Except.ok (key.Provider, key.ProviderUID)

/-- Go struct `sarama.ProducerMessage`, the three fields the program sets. -/
structure ProducerMessage where
  Topic : String
  Key : List Byte
  Value : List Byte
deriving DecidableEq, Repr

/-- The arm of the `select` statement (lines 189-197) that is ready first:
the send on `producer.Input()`, the receive of a delivery error from
`producer.Errors()`, or the receive from `signals`. -/
inductive Arm where
  | input : Arm
  | producerError (err : Error) : Arm
  | signal : Arm
deriving DecidableEq, Repr

/-- The state of the worker and what it has made observable. -/
structure State where
  /-- Variable `enqueued`. -/
  enqueued : Nat
  /-- Variable `errors`. -/
  errors : Nat
  /-- The messages received by `producer.Input()`, oldest first. -/
  input : List ProducerMessage
  /-- The lines written through `log`, oldest first. -/
  log : List String
  /-- Is `none` while `main` waits at `<-doneCh`; afterwards the tally that `main`
  read for its final line. -/
  reported : Option (Nat × Nat)
  /-- History: the rows returned by the cursor. -/
  pulled : List BookingRow
  /-- History: the rows that reached the `select`, each with the arm taken. -/
  taken : List (BookingRow × Arm)
deriving DecidableEq, Repr

/-- How the worker leaves the row loop. -/
inductive Exit where
  /-- The call `rows.Next()` returned false: the goroutine returns. -/
  | exhausted : Exit
  /-- The call `log.Fatal(err)` after a failed lookup or query. -/
  | fatal (err : Error) : Exit
  /-- The call `panic(err)` after a failed `encode`. -/
  | panic (err : Error) : Exit
  /-- The schedule ends while the worker waits in the `select`. -/
  | waiting : Exit
  /-- The worker waits forever in `doneCh <- struct{}{}`: `main` receives from
  `doneCh` only once. -/
  | blocked : Exit
deriving DecidableEq, Repr

/-- The state at the start of the goroutine. -/
def State.init : State :=
  { enqueued := 0, errors := 0, input := [], log := [], reported := none, pulled := [],
    taken := [] }

/-- The final line of `main`: `log.Printf("Enqueued: %d; errors: %d\n", ...)`. -/
def summary (enqueued errors : Nat) : String :=
  "Enqueued: " ++ toString enqueued ++ "; errors: " ++ toString errors

/-- The loop body up to the `select` (lines 155-188): scan, lookup, `encode`,
progress line, construction of the message. -/
def body (lib : AvroLibrary) (QueryRow : Lookup) (w : State) (r : BookingRow) :
    Except (State × Exit) (State × ProducerMessage) :=
  let w := { w with pulled := w.pulled ++ [r] }
  match assemble QueryRow r with
  | Except.error err => Except.error ({ w with log := w.log ++ [err] }, Exit.fatal err)
  | Except.ok (rentalBookingKey, rentalBooking) =>
    let res := encode lib rentalBookingKey rentalBooking
    match res.err with
    | some err => Except.error (w, Exit.panic err)
    | none =>
      let total := w.enqueued + w.errors
      let w := if total % 100000 = 0 then { w with log := w.log ++ [toString total] } else w
      let msg : ProducerMessage :=
        { Topic := kafkaTopic, Key := res.keyBB.getD [], Value := res.payloadBB.getD [] }
      Except.ok (w, msg)

/-- The `select` statement (lines 189-197) when `arm` is ready first. The send
on the unbuffered `doneCh` completes when `main` is still waiting for it, and
`main` then reads the tally for its final line; a later send never completes.
After a completed arm the loop body ends and control returns to
`rows.Next()`. -/
def select (w : State) (r : BookingRow) (msg : ProducerMessage) (arm : Arm) :
    Except (State × Exit) State :=
  let w := { w with taken := w.taken ++ [(r, arm)] }
  match arm with
  | Arm.input => Except.ok { w with enqueued := w.enqueued + 1, input := w.input ++ [msg] }
  | Arm.producerError err =>
    Except.ok { w with errors := w.errors + 1
                       log := w.log ++ ["Failed to produce message: " ++ err] }
  | Arm.signal =>
    match w.reported with
    | none =>
      Except.ok { w with reported := some (w.enqueued, w.errors)
                         log := w.log ++ [summary w.enqueued w.errors] }
    | some _ => Except.error (w, Exit.blocked)

/-- One iteration of the loop for the row `r`; `arm` is the arm that is ready
first, `none` when no arm ever is. -/
def iteration (lib : AvroLibrary) (QueryRow : Lookup) (w : State) (r : BookingRow)
    (arm : Option Arm) : Except (State × Exit) State :=
  match body lib QueryRow w r with
  | Except.error out => Except.error out
  | Except.ok (w, msg) =>
    match arm with
    | none => Except.error (w, Exit.waiting)
    | some a => select w r msg a

/-- The row loop `for rows.Next() { ... }` (lines 153-198). -/
def rowLoop (lib : AvroLibrary) (QueryRow : Lookup) :
    List BookingRow → List Arm → State → State × Exit
  | [], _, w => (w, Exit.exhausted)
  | r :: rows, arms, w =>
    match iteration lib QueryRow w r arms.head? with
    | Except.error out => out
    | Except.ok w => rowLoop lib QueryRow rows arms.tail w

/-- The store as the worker sees it: the result of the primary query and the
per-row lookup. -/
structure Store where
  Query : Except Error (List BookingRow)
  QueryRow : Lookup

/-- The worker goroutine (lines 147-199): the primary query, then the row
loop. -/
def worker (lib : AvroLibrary) (store : Store) (arms : List Arm) : State × Exit :=
  match store.Query with
  | Except.error err => ({ State.init with log := [err] }, Exit.fatal err)
  | Except.ok rows => rowLoop lib store.QueryRow rows arms State.init

/-- What `main` prints after `<-doneCh` (lines 201-202): nothing as long as
no value was sent on `doneCh`. -/
def mainReport (w : State) : Option String :=
  w.reported.map fun t => summary t.1 t.2

/-- The message that an iteration builds for a row: its encoded key and
payload under `kafkaTopic`, when the lookup and `encode` succeed. -/
def message (lib : AvroLibrary) (QueryRow : Lookup) (r : BookingRow) : Option ProducerMessage :=
  match assemble QueryRow r with
  | Except.error _ => none
  | Except.ok (key, payload) =>
    let res := encode lib key payload
    match res.err with
    | some _ => none
    | none => some { Topic := kafkaTopic, Key := res.keyBB.getD [], Value := res.payloadBB.getD [] }

/-- Whether an arm is the delivery-error arm. -/
def Arm.isError : Arm → Bool
  | Arm.producerError _ => true
  | _ => false

/-- The messages of the rows whose iteration took the submit arm, in the order
of the iterations. -/
def submittedOf (lib : AvroLibrary) (QueryRow : Lookup) (taken : List (BookingRow × Arm)) :
    List ProducerMessage :=
  taken.filterMap fun p => if p.2 = Arm.input then message lib QueryRow p.1 else none

deriving instance DecidableEq for Except

/-! ## Sample inputs -/

/-- The key of end-to-end scenario 2: provider `X`, provider_uid `Y`, date
`2024-01-01` (ASCII bytes). -/
def key0 : rentalBookingKey := ⟨[88], [89], [50, 48, 50, 52, 45, 48, 49, 45, 48, 49]⟩

/-- The payload of end-to-end scenario 2: `is_booked` absent, `price` 100.5
(bit pattern `0x4059200000000000`), `booked_price` absent, `price_source`
`manual`. -/
def payload0 : rentalBooking :=
  ⟨⟨false, false⟩, ⟨0x4059200000000000, true⟩, ⟨0, false⟩, ⟨[109, 97, 110, 117, 97, 108], true⟩⟩

/-- A row of `rental_bookings` for property `7` whose assembly gives `key0`
and `payload0`. -/
def row0 : BookingRow :=
  ⟨Cell.value [55], Cell.null, Cell.value [50, 48, 50, 52, 45, 48, 49, 45, 48, 49], Cell.null,
    Cell.value 0x4059200000000000, Cell.value [109, 97, 110, 117, 97, 108]⟩

/-- A second row of property `7`: booked, asking price 100.5, no actual
price, no price source, date `2024-01-02`. -/
def row1 : BookingRow :=
  ⟨Cell.value [55], Cell.value true, Cell.value [50, 48, 50, 52, 45, 48, 49, 45, 48, 50],
    Cell.value 0x4059200000000000, Cell.null, Cell.null⟩

/-- A row of property `7` with `NULL` in `booking_date`: booked, asking price
100.5, actual price 100.5, price source `manual`. -/
def rowNullDate : BookingRow :=
  ⟨Cell.value [55], Cell.value true, Cell.null, Cell.value 0x4059200000000000,
    Cell.value 0x4059200000000000, Cell.value [109, 97, 110, 117, 97, 108]⟩

/-- A `rental_properties` table with the single property `7` of provider `X`
and provider_uid `Y`. -/
def lookup0 : Lookup := fun id =>
  if id = [55] then Except.ok ([88], [89]) else Except.error "sql: no rows in result set"

/-- A library whose codecs are the schemas themselves and whose encoding of
the key fails after the payload was encoded. -/
def keyFailingLibrary : AvroLibrary :=
  ⟨Schema, fun schema => Except.ok schema,
    fun codec _ =>
      if codec = rentalBookingKeySchema then Except.error "cannot encode binary record"
      else Except.ok [0, 0, 0, 0]⟩

/-! ## Theorems -/

/-! ### The payload map -/

theorem ToStringMap_entries (rb : rentalBooking) :
    rb.ToStringMap = ⟨[("is_booked", boolArm rb.IsBooked), ("price", doubleArm rb.Price),
      ("booked_price", doubleArm rb.BookedPrice), ("price_source", stringArm rb.PriceSource)]⟩ := by
  obtain ⟨⟨b, vb⟩, ⟨p, vp⟩, ⟨q, vq⟩, ⟨s, vs⟩⟩ := rb
  cases vb <;> cases vp <;> cases vq <;> cases vs <;>
    simp [rentalBooking.ToStringMap, NullBool.Value, NullFloat64.Value, NullString.Value,
      Union, GoMap.set, GoMap.empty, boolArm, doubleArm, stringArm, List.lookup]

/-- C1: `ToStringMap` returns a map with exactly the keys `is_booked`, `price`,
`booked_price`, `price_source`; each entry is the null arm (`nil`) when the
field is absent and the typed arm (`boolean`, `double`, `double`, `string`)
carrying the stored value when it is present; a present value, the zero value
included, is never mapped to the entry of an absent one. -/
theorem ToStringMap_contract (rb : rentalBooking) :
    rb.ToStringMap.keys = ["is_booked", "price", "booked_price", "price_source"] ∧
    rb.ToStringMap.get "is_booked" = some
      (if rb.IsBooked.Valid then Native.map "boolean" (Native.bool rb.IsBooked.Bool)
       else Native.nil) ∧
    rb.ToStringMap.get "price" = some
      (if rb.Price.Valid then Native.map "double" (Native.float64 rb.Price.Float64)
       else Native.nil) ∧
    rb.ToStringMap.get "booked_price" = some
      (if rb.BookedPrice.Valid then Native.map "double" (Native.float64 rb.BookedPrice.Float64)
       else Native.nil) ∧
    rb.ToStringMap.get "price_source" = some
      (if rb.PriceSource.Valid then Native.map "string" (Native.string rb.PriceSource.String)
       else Native.nil) ∧
    (∀ absent : rentalBooking,
      (rb.IsBooked.Valid = true → absent.IsBooked.Valid = false →
        rb.ToStringMap.get "is_booked" ≠ absent.ToStringMap.get "is_booked") ∧
      (rb.Price.Valid = true → absent.Price.Valid = false →
        rb.ToStringMap.get "price" ≠ absent.ToStringMap.get "price") ∧
      (rb.BookedPrice.Valid = true → absent.BookedPrice.Valid = false →
        rb.ToStringMap.get "booked_price" ≠ absent.ToStringMap.get "booked_price") ∧
      (rb.PriceSource.Valid = true → absent.PriceSource.Valid = false →
        rb.ToStringMap.get "price_source" ≠ absent.ToStringMap.get "price_source")) := by
  have get1 : ∀ x : rentalBooking, x.ToStringMap.get "is_booked" = some (boolArm x.IsBooked) := by
    intro x; rw [ToStringMap_entries]; rfl
  have get2 : ∀ x : rentalBooking, x.ToStringMap.get "price" = some (doubleArm x.Price) := by
    intro x; rw [ToStringMap_entries]; rfl
  have get3 : ∀ x : rentalBooking,
      x.ToStringMap.get "booked_price" = some (doubleArm x.BookedPrice) := by
    intro x; rw [ToStringMap_entries]; rfl
  have get4 : ∀ x : rentalBooking,
      x.ToStringMap.get "price_source" = some (stringArm x.PriceSource) := by
    intro x; rw [ToStringMap_entries]; rfl
  refine ⟨by rw [ToStringMap_entries]; rfl, get1 rb, get2 rb, get3 rb, get4 rb, ?_⟩
  intro absent
  simp only [get1, get2, get3, get4]
  refine ⟨?_, ?_, ?_, ?_⟩ <;> intro h h' <;>
    simp [boolArm, doubleArm, stringArm, h, h']

/-- A present `false`, a present `0.0` and a present empty string go to the
typed arm, and an absent value goes to the null arm. -/
theorem ToStringMap_contract_witness :
    (rentalBooking.ToStringMap ⟨⟨false, true⟩, ⟨0, true⟩, ⟨0, false⟩, ⟨[], true⟩⟩).keys
      = ["is_booked", "price", "booked_price", "price_source"] ∧
    (rentalBooking.ToStringMap ⟨⟨false, true⟩, ⟨0, true⟩, ⟨0, false⟩, ⟨[], true⟩⟩).get "is_booked"
      = some (Native.map "boolean" (Native.bool false)) ∧
    (rentalBooking.ToStringMap ⟨⟨false, true⟩, ⟨0, true⟩, ⟨0, false⟩, ⟨[], true⟩⟩).get "price"
      = some (Native.map "double" (Native.float64 0)) ∧
    (rentalBooking.ToStringMap ⟨⟨false, true⟩, ⟨0, true⟩, ⟨0, false⟩, ⟨[], true⟩⟩).get "booked_price"
      = some Native.nil ∧
    (rentalBooking.ToStringMap ⟨⟨false, true⟩, ⟨0, true⟩, ⟨0, false⟩, ⟨[], true⟩⟩).get "price_source"
      = some (Native.map "string" (Native.string [])) :=
  have h := ToStringMap_contract ⟨⟨false, true⟩, ⟨0, true⟩, ⟨0, false⟩, ⟨[], true⟩⟩
  ⟨h.1, h.2.1, h.2.2.1, h.2.2.2.1, h.2.2.2.2.1⟩

/-! ### The encoder over an arbitrary library -/

/-- C7: `encode` returns either an error with both byte results nil, or no
error with both byte results; it returns no error exactly when both codec
constructions and both encodings succeed, and the results then are the bytes
of the two encodings. -/
theorem encode_all_or_nothing (lib : AvroLibrary) (key : rentalBookingKey)
    (payload : rentalBooking) :
    (((encode lib key payload).err ≠ none ∧ (encode lib key payload).keyBB = none ∧
        (encode lib key payload).payloadBB = none) ∨
      ((encode lib key payload).err = none ∧ (encode lib key payload).keyBB ≠ none ∧
        (encode lib key payload).payloadBB ≠ none)) ∧
    ((encode lib key payload).err = none ↔
      ∃ payloadCodec keyCodec payloadBB keyBB,
        lib.NewCodec rentalBookingSchema = Except.ok payloadCodec ∧
        lib.NewCodec rentalBookingKeySchema = Except.ok keyCodec ∧
        lib.BinaryFromNative payloadCodec payload.ToStringMap = Except.ok payloadBB ∧
        lib.BinaryFromNative keyCodec (structs.Map key) = Except.ok keyBB ∧
        encode lib key payload = ⟨some keyBB, some payloadBB, none⟩) := by
  cases h1 : lib.NewCodec rentalBookingSchema with
  | error e => simp [encode, h1]
  | ok pc =>
    cases h2 : lib.NewCodec rentalBookingKeySchema with
    | error e => simp [encode, h1, h2]
    | ok kc =>
      cases h3 : lib.BinaryFromNative pc payload.ToStringMap with
      | error e => simp [encode, h1, h2, h3]
      | ok pb =>
        cases h4 : lib.BinaryFromNative kc (structs.Map key) with
        | error e => simp [encode, h1, h2, h3, h4]
        | ok kb => simp [encode, h1, h2, h3, h4]

/-- When the payload is encoded and the encoding of the key then fails,
`encode` returns the error and neither byte result. -/
theorem encode_all_or_nothing_witness :
    (encode keyFailingLibrary key0 payload0).err ≠ none ∧
    (encode keyFailingLibrary key0 payload0).keyBB = none ∧
    (encode keyFailingLibrary key0 payload0).payloadBB = none :=
  (encode_all_or_nothing keyFailingLibrary key0 payload0).1.resolve_right (by decide)

/-! ### Row-to-record assembly -/

theorem Scan_ok {r : BookingRow} (h : (Scan (selectList r) Scanned.zero).2 = none) :
    ∃ id date, r.rental_property_id = Cell.value id ∧ r.booking_date = Cell.value date ∧
      r.is_booked ≠ Cell.unconvertible ∧ r.asking_price ≠ Cell.unconvertible ∧
      r.actual_price ≠ Cell.unconvertible ∧ r.price_source ≠ Cell.unconvertible ∧
      (Scan (selectList r) Scanned.zero).1 =
        { rentalPropertyID := id
          rentalBookingKey := { Provider := [], ProviderUID := [], Date := date }
          rentalBooking :=
            { IsBooked := (NullBool.Scan ⟨false, false⟩ r.is_booked).1
              Price := (NullFloat64.Scan ⟨0, false⟩ r.actual_price).1
              BookedPrice := (NullFloat64.Scan ⟨0, false⟩ r.asking_price).1
              PriceSource := (NullString.Scan ⟨[], false⟩ r.price_source).1 } } := by
  obtain ⟨c0, c1, c2, c3, c4, c5⟩ := r
  cases c0 <;> cases c1 <;> cases c2 <;> cases c3 <;> cases c4 <;> cases c5 <;>
    first
    | (exfalso; revert h; simp [Scan, selectList, scanAll, scanString, NullBool.Scan,
        NullFloat64.Scan, NullString.Scan]; done)
    | exact ⟨_, _, rfl, rfl, by simp, by simp, by simp, by simp, rfl⟩

/-- C9, as stated, fails: the row `rowNullDate` has `NULL` in `booking_date`,
so the scan ends at that column and the columns after it are not assigned: the
assembled payload has no `booked_price` although `asking_price` is 100.5. -/
theorem assembly_stops_at_null_date :
    ¬ ∀ (QueryRow : Lookup) (r : BookingRow) (key : rentalBookingKey) (payload : rentalBooking),
        assemble QueryRow r = Except.ok (key, payload) → positional QueryRow r key payload := by
  intro h
  have h0 := h lookup0 rowNullDate ⟨[88], [89], []⟩
    ⟨⟨true, true⟩, ⟨0, false⟩, ⟨0, false⟩, ⟨[], false⟩⟩ (by decide)
  have h1 := h0.1 0x4059200000000000 rfl
  revert h1
  decide

/-- C9, amended: for a row whose six columns convert to their destinations
(`rows.Scan` returns no error), `rental_property_id` and `booking_date` hold
values, the lookup is made by `rental_property_id`; when it fails so does the
assembly, and when it returns `(provider, provider_uid)` the key is
`(provider, provider_uid, booking_date)` and the payload has `is_booked` from
`is_booked`, `price` from `actual_price`, `booked_price` from `asking_price`
and `price_source` from `price_source`. -/
theorem assemble_positional (QueryRow : Lookup) (r : BookingRow)
    (h : (Scan (selectList r) Scanned.zero).2 = none) :
    (∃ id date, r.rental_property_id = Cell.value id ∧ r.booking_date = Cell.value date ∧
      assemble QueryRow r =
        match QueryRow id with
        | Except.error err => Except.error err
        | Except.ok (provider, providerUID) =>
          Except.ok
            ({ Provider := provider, ProviderUID := providerUID, Date := date },
             { IsBooked := (NullBool.Scan ⟨false, false⟩ r.is_booked).1
               Price := (NullFloat64.Scan ⟨0, false⟩ r.actual_price).1
               BookedPrice := (NullFloat64.Scan ⟨0, false⟩ r.asking_price).1
               PriceSource := (NullString.Scan ⟨[], false⟩ r.price_source).1 })) ∧
    ∀ key payload, assemble QueryRow r = Except.ok (key, payload) →
      positional QueryRow r key payload := by
  obtain ⟨id, date, h0, h2, -, -, -, -, hs⟩ := Scan_ok h
  have ha : assemble QueryRow r =
      match QueryRow id with
      | Except.error err => Except.error err
      | Except.ok (provider, providerUID) =>
        Except.ok
          ({ Provider := provider, ProviderUID := providerUID, Date := date },
           { IsBooked := (NullBool.Scan ⟨false, false⟩ r.is_booked).1
             Price := (NullFloat64.Scan ⟨0, false⟩ r.actual_price).1
             BookedPrice := (NullFloat64.Scan ⟨0, false⟩ r.asking_price).1
             PriceSource := (NullString.Scan ⟨[], false⟩ r.price_source).1 }) := by
    unfold assemble
    rw [hs]
  refine ⟨⟨id, date, h0, h2, ha⟩, ?_⟩
  intro key payload hkp
  rw [ha] at hkp
  cases hq : QueryRow id with
  | error e => simp [hq] at hkp
  | ok pu =>
    obtain ⟨p, u⟩ := pu
    simp only [hq, Except.ok.injEq, Prod.mk.injEq] at hkp
    obtain ⟨hk, hp⟩ := hkp
    subst hk hp
    refine ⟨?_, ?_, ?_, ?_, ?_, ?_, ?_, ?_, h2, id, h0, hq⟩ <;> intro x <;>
      first
      | (intro hx; simp [hx, NullBool.Scan, NullFloat64.Scan, NullString.Scan])
      | simp [x, NullBool.Scan, NullFloat64.Scan, NullString.Scan]

/-- The row `row0`, with actual price 100.5 and no asking price, scans without
error and assembles to the key `key0` and to a payload with price 100.5 and no
booked price. -/
theorem assemble_positional_witness :
    (Scan (selectList row0) Scanned.zero).2 = none ∧
    assemble lookup0 row0 = Except.ok (key0, payload0) ∧
    positional lookup0 row0 key0 payload0 :=
  ⟨by decide, by decide,
   (assemble_positional lookup0 row0 (by decide)).2 key0 payload0 (by decide)⟩

/-! ### The row loop -/

theorem body_ok {lib : AvroLibrary} {QueryRow : Lookup} {w w1 : State} {r : BookingRow}
    {msg : ProducerMessage} (h : body lib QueryRow w r = Except.ok (w1, msg)) :
    message lib QueryRow r = some msg ∧ w1.enqueued = w.enqueued ∧ w1.errors = w.errors ∧
    w1.input = w.input ∧ w1.reported = w.reported ∧ w1.pulled = w.pulled ++ [r] ∧
    w1.taken = w.taken := by
  unfold body at h
  unfold message
  cases ha : assemble QueryRow r with
  | error e => simp [ha] at h
  | ok kp =>
    obtain ⟨key, payload⟩ := kp
    simp only [ha] at h ⊢
    cases he : (encode lib key payload).err with
    | some e => simp [he] at h
    | none =>
      simp only [he, Except.ok.injEq, Prod.mk.injEq] at h ⊢
      obtain ⟨hw, hm⟩ := h
      subst hw hm
      refine ⟨rfl, ?_⟩
      split <;> simp

theorem body_error {lib : AvroLibrary} {QueryRow : Lookup} {w w1 : State} {r : BookingRow}
    {ex : Exit} (h : body lib QueryRow w r = Except.error (w1, ex)) :
    ((∃ e, ex = Exit.fatal e) ∨ (∃ e, ex = Exit.panic e)) ∧ w1.enqueued = w.enqueued ∧
    w1.errors = w.errors ∧ w1.input = w.input ∧ w1.reported = w.reported ∧
    w1.pulled = w.pulled ++ [r] ∧ w1.taken = w.taken := by
  unfold body at h
  cases ha : assemble QueryRow r with
  | error e =>
    simp only [ha, Except.error.injEq, Prod.mk.injEq] at h
    obtain ⟨hw, hx⟩ := h
    subst hw hx
    simp
  | ok kp =>
    obtain ⟨key, payload⟩ := kp
    simp only [ha] at h
    cases he : (encode lib key payload).err with
    | some e =>
      simp only [he, Except.error.injEq, Prod.mk.injEq] at h
      obtain ⟨hw, hx⟩ := h
      subst hw hx
      simp
    | none => simp [he] at h

theorem select_ok {w w2 : State} {r : BookingRow} {msg : ProducerMessage} {a : Arm}
    (h : select w r msg a = Except.ok w2) :
    w2.taken = w.taken ++ [(r, a)] ∧ w2.pulled = w.pulled ∧
    w2.enqueued = w.enqueued + (if a = Arm.input then 1 else 0) ∧
    w2.errors = w.errors + (if a.isError then 1 else 0) ∧
    w2.input = w.input ++ (if a = Arm.input then [msg] else []) := by
  unfold select at h
  cases a with
  | input =>
    simp only [Except.ok.injEq] at h
    subst h
    simp [Arm.isError]
  | producerError e =>
    simp only [Except.ok.injEq] at h
    subst h
    simp [Arm.isError]
  | signal =>
    cases hr : w.reported with
    | none =>
      simp only [hr, Except.ok.injEq] at h
      subst h
      simp [Arm.isError]
    | some t => simp [hr] at h

theorem select_error {w w2 : State} {r : BookingRow} {msg : ProducerMessage} {a : Arm}
    {ex : Exit} (h : select w r msg a = Except.error (w2, ex)) :
    a = Arm.signal ∧ ex = Exit.blocked ∧ w2.taken = w.taken ++ [(r, a)] ∧
    w2.pulled = w.pulled ∧ w2.enqueued = w.enqueued ∧ w2.errors = w.errors ∧
    w2.input = w.input := by
  unfold select at h
  cases a with
  | input => simp at h
  | producerError e => simp at h
  | signal =>
    cases hr : w.reported with
    | none => simp [hr] at h
    | some t =>
      simp only [hr, Except.error.injEq, Prod.mk.injEq] at h
      obtain ⟨hw, hx⟩ := h
      subst hw hx
      simp

/-- What a run of the row loop adds to a state: the iterations `ts` that
reached the `select` and the pulled rows `ps`. -/
theorem rowLoop_delta (lib : AvroLibrary) (QueryRow : Lookup) :
    ∀ (rows : List BookingRow) (arms : List Arm) (w : State),
      ∃ ts ps,
        (rowLoop lib QueryRow rows arms w).1.taken = w.taken ++ ts ∧
        (rowLoop lib QueryRow rows arms w).1.pulled = w.pulled ++ ps ∧
        ps <+: rows ∧ ts.map Prod.fst <+: ps ∧ ts.map Prod.snd <+: arms ∧
        (rowLoop lib QueryRow rows arms w).1.enqueued
          = w.enqueued + ts.countP (fun p => p.2 = Arm.input) ∧
        (rowLoop lib QueryRow rows arms w).1.errors
          = w.errors + ts.countP (fun p => p.2.isError) ∧
        (rowLoop lib QueryRow rows arms w).1.input = w.input ++ submittedOf lib QueryRow ts ∧
        ((rowLoop lib QueryRow rows arms w).2 = Exit.exhausted →
          ps = rows ∧ ts.map Prod.fst = rows) ∧
        (∀ p ∈ ts, p.2 = Arm.input → message lib QueryRow p.1 ≠ none) := by
  intro rows
  induction rows with
  | nil =>
    intro arms w
    exact ⟨[], [], by simp [rowLoop, submittedOf]⟩
  | cons r rs ih =>
    intro arms w
    unfold rowLoop iteration
    cases hb : body lib QueryRow w r with
    | error out =>
      obtain ⟨w1, ex⟩ := out
      obtain ⟨hex, h1, h2, h3, -, h5, h6⟩ := body_error hb
      refine ⟨[], [r], ?_⟩
      rcases hex with ⟨e, he⟩ | ⟨e, he⟩ <;> subst he <;>
        simp [h1, h2, h3, h5, h6, submittedOf]
    | ok p =>
      obtain ⟨w1, msg⟩ := p
      obtain ⟨hm, h1, h2, h3, -, h5, h6⟩ := body_ok hb
      cases arms with
      | nil =>
        refine ⟨[], [r], ?_⟩
        simp [h1, h2, h3, h5, h6, submittedOf]
      | cons a as =>
        simp only [List.head?_cons, List.tail_cons]
        cases hs : select w1 r msg a with
        | error out =>
          obtain ⟨w2, ex⟩ := out
          obtain ⟨ha, hx, k1, k2, k3, k4, k5⟩ := select_error hs
          subst ha hx
          refine ⟨[(r, Arm.signal)], [r], ?_⟩
          simp [k1, k2, k3, k4, k5, h1, h2, h3, h5, h6, submittedOf, Arm.isError]
        | ok w2 =>
          obtain ⟨k1, k2, k3, k4, k5⟩ := select_ok hs
          obtain ⟨ts, ps, i1, i2, i3, i4, i5, i6, i7, i8, i9, i10⟩ := ih as w2
          refine ⟨(r, a) :: ts, r :: ps, ?_⟩
          simp only [i1, i2, i6, i7, i8, k1, k2, k3, k4, k5, h1, h2, h3, h5, h6]
          refine ⟨by simp, by simp, ?_, ?_, ?_, ?_, ?_, ?_, ?_, ?_⟩
          · exact (List.cons_prefix_cons).2 ⟨rfl, i3⟩
          · simpa [List.cons_prefix_cons] using i4
          · simpa [List.cons_prefix_cons] using i5
          · by_cases hai : a = Arm.input <;> (simp [hai, List.countP_cons]; try omega)
          · cases hae : a.isError <;> (simp [hae, List.countP_cons]; try omega)
          · by_cases hai : a = Arm.input <;> simp [hai, submittedOf, List.filterMap_cons, hm]
          · intro hx
            obtain ⟨j1, j2⟩ := i9 hx
            simp [j1, j2]
          · intro p hp hpa
            rcases List.mem_cons.1 hp with rfl | hp
            · simp [hm]
            · exact i10 p hp hpa

theorem init_fields :
    State.init.taken = [] ∧ State.init.pulled = [] ∧ State.init.enqueued = 0 ∧
    State.init.errors = 0 ∧ State.init.input = [] ∧ State.init.reported = none :=
  ⟨rfl, rfl, rfl, rfl, rfl, rfl⟩

theorem isError_input : Arm.isError Arm.input = false := rfl

theorem isError_producerError (e : Error) : Arm.isError (Arm.producerError e) = true := rfl

theorem isError_signal : Arm.isError Arm.signal = false := rfl

theorem countP_arms (ts : List (BookingRow × Arm)) :
    ts.countP (fun p => p.2 = Arm.input) + ts.countP (fun p => p.2.isError) +
      ts.countP (fun p => p.2 = Arm.signal) = ts.length := by
  induction ts with
  | nil => rfl
  | cons p ts ih =>
    obtain ⟨r, a⟩ := p
    cases a <;>
      simp [List.countP_cons, isError_input, isError_producerError, isError_signal] <;> omega

/-- C3, as stated, fails: a run over one row whose iteration takes the
cancellation arm reaches the end of the cursor with `enqueued + errors = 0`. -/
theorem tally_misses_cancelled_row :
    ¬ ∀ (lib : AvroLibrary) (QueryRow : Lookup) (rows : List BookingRow) (arms : List Arm),
        (rowLoop lib QueryRow rows arms State.init).2 = Exit.exhausted →
        (rowLoop lib QueryRow rows arms State.init).1.enqueued
          + (rowLoop lib QueryRow rows arms State.init).1.errors = rows.length := by
  intro h
  have h0 := h goavro.library lookup0 [row0] [Arm.signal] (by decide)
  revert h0
  decide

/-- C3, amended: in a run of the row loop that reaches the end of the cursor,
all `n` rows were pulled and reached the `select`, and `enqueued + errors` plus
the number of iterations that took the cancellation arm is `n`; so
`enqueued + errors = n` when no iteration took the cancellation arm. -/
theorem tally_counts_pulled_rows (lib : AvroLibrary) (QueryRow : Lookup)
    (rows : List BookingRow) (arms : List Arm)
    (h : (rowLoop lib QueryRow rows arms State.init).2 = Exit.exhausted) :
    (rowLoop lib QueryRow rows arms State.init).1.pulled = rows ∧
    (rowLoop lib QueryRow rows arms State.init).1.taken.map Prod.fst = rows ∧
    (rowLoop lib QueryRow rows arms State.init).1.enqueued
      + (rowLoop lib QueryRow rows arms State.init).1.errors
      + (rowLoop lib QueryRow rows arms State.init).1.taken.countP (fun p => p.2 = Arm.signal)
      = rows.length ∧
    ((∀ p ∈ (rowLoop lib QueryRow rows arms State.init).1.taken, p.2 ≠ Arm.signal) →
      (rowLoop lib QueryRow rows arms State.init).1.enqueued
        + (rowLoop lib QueryRow rows arms State.init).1.errors = rows.length) := by
  obtain ⟨ts, ps, i1, i2, -, -, -, i6, i7, -, i9, -⟩ :=
    rowLoop_delta lib QueryRow rows arms State.init
  obtain ⟨j1, j2⟩ := i9 h
  have hlen : ts.length = rows.length := by rw [← j2, List.length_map]
  have hc := countP_arms ts
  simp only [init_fields.1, init_fields.2.1, init_fields.2.2.1, init_fields.2.2.2.1,
    List.nil_append, Nat.zero_add] at i1 i2 i6 i7
  rw [i1, i2, i6, i7]
  refine ⟨j1, j2, by omega, ?_⟩
  intro hns
  have h0 : ts.countP (fun p => p.2 = Arm.signal) = 0 := by
    rw [List.countP_eq_zero]
    intro p hp
    simpa using hns p hp
  omega

/-- Two rows, a delivery error for the first and a submission of the second:
the cursor is exhausted with `enqueued + errors = 2`. -/
theorem tally_counts_pulled_rows_witness :
    (rowLoop goavro.library lookup0 [row0, row1] [Arm.producerError "kafka: timeout", Arm.input]
        State.init).2 = Exit.exhausted ∧
    (rowLoop goavro.library lookup0 [row0, row1] [Arm.producerError "kafka: timeout", Arm.input]
        State.init).1.enqueued
      + (rowLoop goavro.library lookup0 [row0, row1] [Arm.producerError "kafka: timeout", Arm.input]
        State.init).1.errors = 2 :=
  ⟨by decide,
   (tally_counts_pulled_rows goavro.library lookup0 [row0, row1]
      [Arm.producerError "kafka: timeout", Arm.input] (by decide)).2.2.2 (by decide)⟩

/-- C4, evidence of the defect: after the iteration of `row0` takes the
cancellation arm and `main` has reported the tally (0, 0), the loop goes on:
`row1` is pulled, encoded and submitted, and `enqueued` becomes 1. -/
theorem loop_continues_after_cancellation :
    rowLoop goavro.library lookup0 [row0, row1] [Arm.signal, Arm.input] State.init =
      ({ enqueued := 1, errors := 0,
         input := [⟨"test", [2, 88, 2, 89, 20, 50, 48, 50, 52, 45, 48, 49, 45, 48, 50],
                    [2, 1, 0, 2, 0, 0, 0, 0, 0, 32, 89, 64, 0]⟩],
         log := ["0", "Enqueued: 0; errors: 0", "0"],
         reported := some (0, 0),
         pulled := [row0, row1],
         taken := [(row0, Arm.signal), (row1, Arm.input)] }, Exit.exhausted) := by
  decide

/-- C5, evidence of the defect: when the store yields no row the goroutine
returns without a send on `doneCh`, whatever the schedule: `main` stays at
`<-doneCh` and prints no tally. The same holds after one submitted row. -/
theorem exhaustion_sends_no_completion (lib : AvroLibrary) (QueryRow : Lookup)
    (arms : List Arm) :
    worker lib ⟨Except.ok [], QueryRow⟩ arms = (State.init, Exit.exhausted) ∧
    mainReport (worker lib ⟨Except.ok [], QueryRow⟩ arms).1 = none ∧
    (worker goavro.library ⟨Except.ok [row0], lookup0⟩ [Arm.input]).2 = Exit.exhausted ∧
    (worker goavro.library ⟨Except.ok [row0], lookup0⟩ [Arm.input]).1.enqueued = 1 ∧
    mainReport (worker goavro.library ⟨Except.ok [row0], lookup0⟩ [Arm.input]).1 = none := by
  refine ⟨rfl, rfl, ?_, ?_, ?_⟩ <;> decide

/-- The row loop pulls the row at the head of the cursor. -/
theorem rowLoop_pulls_first (lib : AvroLibrary) (QueryRow : Lookup) (r : BookingRow)
    (rows : List BookingRow) (arms : List Arm) (w : State) :
    (w.pulled ++ [r]) <+: (rowLoop lib QueryRow (r :: rows) arms w).1.pulled := by
  unfold rowLoop iteration
  cases hb : body lib QueryRow w r with
  | error out =>
    obtain ⟨w1, ex⟩ := out
    obtain ⟨-, -, -, -, -, h5, -⟩ := body_error hb
    simp [h5]
  | ok p =>
    obtain ⟨w1, msg⟩ := p
    obtain ⟨-, -, -, -, -, h5, -⟩ := body_ok hb
    cases arms with
    | nil => simp [h5]
    | cons a as =>
      simp only [List.head?_cons, List.tail_cons]
      cases hs : select w1 r msg a with
      | error out =>
        obtain ⟨w2, ex⟩ := out
        obtain ⟨-, -, -, k2, -⟩ := select_error hs
        simp [k2, h5]
      | ok w2 =>
        obtain ⟨-, k2, -⟩ := select_ok hs
        obtain ⟨ts, ps, -, i2, -⟩ := rowLoop_delta lib QueryRow rows as w2
        simp only [i2, k2, h5]
        exact List.prefix_append _ _

/-- The errors counter never goes down in a run of the row loop. -/
theorem rowLoop_errors_mono (lib : AvroLibrary) (QueryRow : Lookup) (rows : List BookingRow)
    (arms : List Arm) (w : State) :
    w.errors ≤ (rowLoop lib QueryRow rows arms w).1.errors := by
  obtain ⟨ts, ps, -, -, -, -, -, -, i7, -⟩ := rowLoop_delta lib QueryRow rows arms w
  omega

/-- C6: an iteration that reaches the `select` and takes the delivery-error
arm ends in a state with `errors` one higher, `enqueued` unchanged, nothing
submitted and nothing reported to `main`; the run is not ended by it: the loop
goes on from that state with the rest of the cursor, it pulls the next row
when there is one and ends by exhaustion when there is none, and the error
stays counted. -/
theorem delivery_error_arm (lib : AvroLibrary) (QueryRow : Lookup) (w : State)
    (r : BookingRow) (err : Error) (h : (body lib QueryRow w r).toBool = true) :
    ∃ w2, iteration lib QueryRow w r (some (Arm.producerError err)) = Except.ok w2 ∧
      w2.errors = w.errors + 1 ∧ w2.enqueued = w.enqueued ∧ w2.reported = w.reported ∧
      w2.input = w.input ∧
      w2.pulled = w.pulled ++ [r] ∧ w2.taken = w.taken ++ [(r, Arm.producerError err)] ∧
      (∀ rows arms, rowLoop lib QueryRow (r :: rows) (Arm.producerError err :: arms) w
        = rowLoop lib QueryRow rows arms w2) ∧
      (∀ arms, rowLoop lib QueryRow [r] (Arm.producerError err :: arms) w
        = (w2, Exit.exhausted)) ∧
      (∀ next rows arms, (w.pulled ++ [r, next]) <+:
        (rowLoop lib QueryRow (r :: next :: rows) (Arm.producerError err :: arms) w).1.pulled) ∧
      (∀ rows arms, w.errors + 1 ≤
        (rowLoop lib QueryRow (r :: rows) (Arm.producerError err :: arms) w).1.errors) := by
  cases hb : body lib QueryRow w r with
  | error out => simp [hb, Except.toBool] at h
  | ok p =>
    obtain ⟨w1, msg⟩ := p
    obtain ⟨-, h1, h2, h3, h4, h5, h6⟩ := body_ok hb
    have hit : iteration lib QueryRow w r (some (Arm.producerError err)) = Except.ok
        { w1 with taken := w1.taken ++ [(r, Arm.producerError err)]
                  errors := w1.errors + 1
                  log := w1.log ++ ["Failed to produce message: " ++ err] } := by
      simp only [iteration, hb, select]
    have hloop : ∀ rows arms,
        rowLoop lib QueryRow (r :: rows) (Arm.producerError err :: arms) w
          = rowLoop lib QueryRow rows arms
              { w1 with taken := w1.taken ++ [(r, Arm.producerError err)]
                        errors := w1.errors + 1
                        log := w1.log ++ ["Failed to produce message: " ++ err] } := by
      intro rows arms
      simp [rowLoop, hit]
    refine ⟨_, hit, ?_, ?_, ?_, ?_, ?_, ?_, hloop, ?_, ?_, ?_⟩
    · simp [h2]
    · simp [h1]
    · simp [h4]
    · simp [h3]
    · simp [h5]
    · simp [h6]
    · intro arms
      rw [hloop]
      rfl
    · intro next rows arms
      rw [hloop]
      have hp := rowLoop_pulls_first lib QueryRow next rows arms
        { w1 with taken := w1.taken ++ [(r, Arm.producerError err)]
                  errors := w1.errors + 1
                  log := w1.log ++ ["Failed to produce message: " ++ err] }
      simpa [h5] using hp
    · intro rows arms
      rw [hloop]
      have hm := rowLoop_errors_mono lib QueryRow rows arms
        { w1 with taken := w1.taken ++ [(r, Arm.producerError err)]
                  errors := w1.errors + 1
                  log := w1.log ++ ["Failed to produce message: " ++ err] }
      simpa [h2] using hm

/-- A delivery error in the first iteration of a run over `row0`, `row1`: the
error is counted, `row1` is pulled next, and the run, with `row1` submitted,
ends by exhaustion with the tally (1, 1). -/
theorem delivery_error_arm_witness :
    (body goavro.library lookup0 State.init row0).toBool = true ∧
    (∃ w2, iteration goavro.library lookup0 State.init row0
        (some (Arm.producerError "kafka: timeout")) = Except.ok w2 ∧
      w2.errors = State.init.errors + 1 ∧ w2.enqueued = State.init.enqueued ∧
      w2.reported = State.init.reported ∧ w2.input = State.init.input ∧
      w2.pulled = State.init.pulled ++ [row0] ∧
      w2.taken = State.init.taken ++ [(row0, Arm.producerError "kafka: timeout")] ∧
      (∀ rows arms, rowLoop goavro.library lookup0 (row0 :: rows)
          (Arm.producerError "kafka: timeout" :: arms) State.init
        = rowLoop goavro.library lookup0 rows arms w2) ∧
      (∀ arms, rowLoop goavro.library lookup0 [row0]
          (Arm.producerError "kafka: timeout" :: arms) State.init
        = (w2, Exit.exhausted)) ∧
      (∀ next rows arms, (State.init.pulled ++ [row0, next]) <+:
        (rowLoop goavro.library lookup0 (row0 :: next :: rows)
          (Arm.producerError "kafka: timeout" :: arms) State.init).1.pulled) ∧
      (∀ rows arms, State.init.errors + 1 ≤
        (rowLoop goavro.library lookup0 (row0 :: rows)
          (Arm.producerError "kafka: timeout" :: arms) State.init).1.errors)) ∧
    (rowLoop goavro.library lookup0 [row0, row1] [Arm.producerError "kafka: timeout", Arm.input]
        State.init).1.pulled = [row0, row1] ∧
    (rowLoop goavro.library lookup0 [row0, row1] [Arm.producerError "kafka: timeout", Arm.input]
        State.init).1.errors = 1 ∧
    (rowLoop goavro.library lookup0 [row0, row1] [Arm.producerError "kafka: timeout", Arm.input]
        State.init).1.enqueued = 1 ∧
    (rowLoop goavro.library lookup0 [row0, row1] [Arm.producerError "kafka: timeout", Arm.input]
        State.init).2 = Exit.exhausted :=
  ⟨by decide, delivery_error_arm goavro.library lookup0 State.init row0 "kafka: timeout"
    (by decide), by decide, by decide, by decide, by decide⟩

theorem byte_val (n : Nat) (h : n < 256) : ((Fin.ofNat n : Byte) : Nat) = n := by
  simp [Fin.ofNat, Nat.mod_eq_of_lt h]

theorem unvarint_varint : ∀ (fuel n : Nat) (rest : List Byte) (shift acc : Nat),
    n < 128 ^ (fuel + 1) →
    goavro.unvarint (goavro.varint (fuel + 1) n ++ rest) shift acc
      = Except.ok (acc + n * 2 ^ shift, rest) := by
  intro fuel
  induction fuel with
  | zero =>
    intro n rest shift acc hn
    have hn' : n < 128 := by simpa using hn
    have hd : n / 128 = 0 := by omega
    have hb : ((Fin.ofNat n : Byte) : Nat) = n := byte_val n (by omega)
    have hm : n % 128 = n := by omega
    simp [goavro.varint, goavro.unvarint, hd, hb, hm]
  | succ fuel ih =>
    intro n rest shift acc hn
    by_cases hd : n / 128 = 0
    · have hn' : n < 128 := by omega
      have hb : ((Fin.ofNat n : Byte) : Nat) = n := byte_val n (by omega)
      have hm : n % 128 = n := by omega
      rw [goavro.varint]
      simp [goavro.unvarint, hd, hb, hm]
    · have hb : ((Fin.ofNat (n % 128 + 128) : Byte) : Nat) = n % 128 + 128 :=
        byte_val _ (by omega)
      have hlt : n / 128 < 128 ^ (fuel + 1) := by
        rw [Nat.div_lt_iff_lt_mul (by decide)]
        calc n < 128 ^ (fuel + 1 + 1) := hn
          _ = 128 ^ (fuel + 1) * 128 := by rw [pow_succ]
      have h1 : (n % 128 + 128) % 128 = n % 128 := by omega
      have h2 : (n % 128 + 128) / 128 = 1 := by omega
      rw [goavro.varint]
      simp only [hd, if_false, List.cons_append, goavro.unvarint, hb, h1, h2]
      rw [if_neg (by decide), ih (n / 128) rest (shift + 7) _ hlt]
      have h3 : (2 : Nat) ^ (shift + 7) = 128 * 2 ^ shift := by
        rw [pow_add]; ring
      have h4 : n % 128 * 2 ^ shift + n / 128 * (128 * 2 ^ shift) = n * 2 ^ shift := by
        have := Nat.mod_add_div n 128
        calc n % 128 * 2 ^ shift + n / 128 * (128 * 2 ^ shift)
            = (n % 128 + 128 * (n / 128)) * 2 ^ shift := by ring
          _ = n * 2 ^ shift := by rw [this]
      rw [h3, Nat.add_assoc, h4]

theorem long_roundtrip (value : Nat) (rest : List Byte) :
    goavro.longNativeFromBinary (goavro.longBinaryFromNative value ++ rest)
      = Except.ok ((value : Int), rest) := by
  have hlt : 2 * value < 128 ^ (2 * value + 1) :=
    calc 2 * value < 2 * value + 1 := Nat.lt_succ_self _
      _ < 128 ^ (2 * value + 1) := Nat.lt_pow_self (by decide) _
  unfold goavro.longNativeFromBinary goavro.longBinaryFromNative
  rw [unvarint_varint _ _ _ _ _ hlt]
  simp

theorem double_roundtrip (f : float64) (rest : List Byte) :
    goavro.primNativeFromBinary Prim.double (goavro.doubleBytes f ++ rest)
      = Except.ok (Native.float64 f, rest) := by
  obtain ⟨v, hv⟩ := f
  simp only [goavro.doubleBytes, List.cons_append, List.nil_append, goavro.primNativeFromBinary,
    Except.ok.injEq, Prod.mk.injEq, Native.float64.injEq, and_true]
  apply Fin.ext
  simp only [Fin.ofNat, Fin.val_mk]
  omega

theorem string_roundtrip (s : GoString) (rest : List Byte) :
    goavro.primNativeFromBinary Prim.string
        (goavro.longBinaryFromNative s.length ++ (s ++ rest))
      = Except.ok (Native.string s, rest) := by
  have h1 : ¬ ((s.length : Int) < 0) := by omega
  have h2 : ¬ (((s ++ rest).length : Int) < (s.length : Int)) := by
    rw [List.length_append]; omega
  simp only [goavro.primNativeFromBinary, long_roundtrip, h1, h2, if_false, Int.toNat_ofNat,
    List.take_left, List.drop_left]

/-- The bytes of a union entry `["null", T]` built by `ToStringMap`. -/
theorem boolArm_roundtrip (n : NullBool) :
    ∃ bs, goavro.fieldBinaryFromNative (FieldType.union [Prim.null, Prim.boolean]) (boolArm n)
        = Except.ok bs ∧
      ∀ rest, goavro.fieldNativeFromBinary (FieldType.union [Prim.null, Prim.boolean]) (bs ++ rest)
        = Except.ok (boolArm n, rest) := by
  obtain ⟨b, v⟩ := n
  cases v <;> cases b <;> exact ⟨_, rfl, fun rest => rfl⟩

theorem doubleArm_roundtrip (n : NullFloat64) :
    ∃ bs, goavro.fieldBinaryFromNative (FieldType.union [Prim.null, Prim.double]) (doubleArm n)
        = Except.ok bs ∧
      ∀ rest, goavro.fieldNativeFromBinary (FieldType.union [Prim.null, Prim.double]) (bs ++ rest)
        = Except.ok (doubleArm n, rest) := by
  obtain ⟨f, v⟩ := n
  cases v
  · exact ⟨_, rfl, fun rest => rfl⟩
  · refine ⟨goavro.longBinaryFromNative 1 ++ goavro.doubleBytes f, rfl, fun rest => ?_⟩
    have h := double_roundtrip f rest
    have hl := long_roundtrip 1 (goavro.doubleBytes f ++ rest)
    simp only [goavro.fieldNativeFromBinary, List.append_assoc, hl]
    simp [Union, Prim.typeName, h, doubleArm]

theorem stringArm_roundtrip (n : NullString) :
    ∃ bs, goavro.fieldBinaryFromNative (FieldType.union [Prim.null, Prim.string]) (stringArm n)
        = Except.ok bs ∧
      ∀ rest, goavro.fieldNativeFromBinary (FieldType.union [Prim.null, Prim.string]) (bs ++ rest)
        = Except.ok (stringArm n, rest) := by
  obtain ⟨s, v⟩ := n
  cases v
  · exact ⟨_, rfl, fun rest => rfl⟩
  · refine ⟨goavro.longBinaryFromNative 1 ++ (goavro.longBinaryFromNative s.length ++ s), rfl,
      fun rest => ?_⟩
    have h := string_roundtrip s rest
    have hl := long_roundtrip 1 (goavro.longBinaryFromNative s.length ++ (s ++ rest))
    simp only [goavro.fieldNativeFromBinary, List.append_assoc, hl]
    simp [Union, Prim.typeName, h, stringArm]

theorem newCodec_key :
    goavro.NewCodec rentalBookingKeySchema = Except.ok ⟨rentalBookingKeySchema⟩ := by
  decide

theorem newCodec_payload :
    goavro.NewCodec rentalBookingSchema = Except.ok ⟨rentalBookingSchema⟩ := by
  decide

theorem structsMap_entries (key : rentalBookingKey) :
    structs.Map key = ⟨[("provider", Native.string key.Provider),
      ("provider_uid", Native.string key.ProviderUID), ("date", Native.string key.Date)]⟩ := by
  rfl

/-- The key bytes and their decoding. -/
theorem key_roundtrip (key : rentalBookingKey) :
    ∃ bs, goavro.BinaryFromNative ⟨rentalBookingKeySchema⟩ (structs.Map key) = Except.ok bs ∧
      goavro.NativeFromBinary ⟨rentalBookingKeySchema⟩ bs = Except.ok (structs.Map key, []) := by
  refine ⟨(goavro.longBinaryFromNative key.Provider.length ++ key.Provider) ++
    ((goavro.longBinaryFromNative key.ProviderUID.length ++ key.ProviderUID) ++
      ((goavro.longBinaryFromNative key.Date.length ++ key.Date) ++ [])), rfl, ?_⟩
  simp only [goavro.NativeFromBinary, rentalBookingKeySchema, goavro.fieldsNativeFromBinary,
    goavro.fieldNativeFromBinary, List.append_assoc, string_roundtrip]
  rfl

/-- The payload bytes and their decoding. -/
theorem payload_roundtrip (payload : rentalBooking) :
    ∃ bs, goavro.BinaryFromNative ⟨rentalBookingSchema⟩ payload.ToStringMap = Except.ok bs ∧
      goavro.NativeFromBinary ⟨rentalBookingSchema⟩ bs
        = Except.ok (payload.ToStringMap, []) := by
  obtain ⟨b1, e1, d1⟩ := boolArm_roundtrip payload.IsBooked
  obtain ⟨b2, e2, d2⟩ := doubleArm_roundtrip payload.Price
  obtain ⟨b3, e3, d3⟩ := doubleArm_roundtrip payload.BookedPrice
  obtain ⟨b4, e4, d4⟩ := stringArm_roundtrip payload.PriceSource
  rw [ToStringMap_entries]
  refine ⟨b1 ++ (b2 ++ (b3 ++ (b4 ++ []))), ?_, ?_⟩
  · simp only [goavro.BinaryFromNative, rentalBookingSchema, goavro.fieldsBinaryFromNative]
    have g1 : GoMap.get ⟨[("is_booked", boolArm payload.IsBooked),
        ("price", doubleArm payload.Price), ("booked_price", doubleArm payload.BookedPrice),
        ("price_source", stringArm payload.PriceSource)]⟩ "is_booked"
        = some (boolArm payload.IsBooked) := rfl
    have g2 : GoMap.get ⟨[("is_booked", boolArm payload.IsBooked),
        ("price", doubleArm payload.Price), ("booked_price", doubleArm payload.BookedPrice),
        ("price_source", stringArm payload.PriceSource)]⟩ "price"
        = some (doubleArm payload.Price) := rfl
    have g3 : GoMap.get ⟨[("is_booked", boolArm payload.IsBooked),
        ("price", doubleArm payload.Price), ("booked_price", doubleArm payload.BookedPrice),
        ("price_source", stringArm payload.PriceSource)]⟩ "booked_price"
        = some (doubleArm payload.BookedPrice) := rfl
    have g4 : GoMap.get ⟨[("is_booked", boolArm payload.IsBooked),
        ("price", doubleArm payload.Price), ("booked_price", doubleArm payload.BookedPrice),
        ("price_source", stringArm payload.PriceSource)]⟩ "price_source"
        = some (stringArm payload.PriceSource) := rfl
    simp only [g1, g2, g3, g4, e1, e2, e3, e4]
  · simp only [goavro.NativeFromBinary, rentalBookingSchema, goavro.fieldsNativeFromBinary,
      d1, d2, d3, d4]
    rfl

theorem encode_goavro (key : rentalBookingKey) (payload : rentalBooking) :
    ∃ keyBB payloadBB,
      goavro.BinaryFromNative ⟨rentalBookingKeySchema⟩ (structs.Map key) = Except.ok keyBB ∧
      goavro.BinaryFromNative ⟨rentalBookingSchema⟩ payload.ToStringMap = Except.ok payloadBB ∧
      encode goavro.library key payload = ⟨some keyBB, some payloadBB, none⟩ ∧
      decodeKey keyBB = Except.ok (structs.Map key, []) ∧
      decodePayload payloadBB = Except.ok (payload.ToStringMap, []) := by
  obtain ⟨kb, ek, dk⟩ := key_roundtrip key
  obtain ⟨pb, ep, dp⟩ := payload_roundtrip payload
  refine ⟨kb, pb, ek, ep, ?_, ?_, ?_⟩
  · have e1 : goavro.library.NewCodec rentalBookingSchema = Except.ok ⟨rentalBookingSchema⟩ :=
      newCodec_payload
    have e2 : goavro.library.NewCodec rentalBookingKeySchema
        = Except.ok ⟨rentalBookingKeySchema⟩ := newCodec_key
    have e3 : goavro.library.BinaryFromNative ⟨rentalBookingSchema⟩ payload.ToStringMap
        = Except.ok pb := ep
    have e4 : goavro.library.BinaryFromNative ⟨rentalBookingKeySchema⟩ (structs.Map key)
        = Except.ok kb := ek
    simp only [encode, e1, e2, e3, e4]
  · simp only [decodeKey, newCodec_key, dk]
  · simp only [decodePayload, newCodec_payload, dp]

theorem body_no_panic {lib : AvroLibrary} (hlib : ∀ key payload, (encode lib key payload).err = none)
    (QueryRow : Lookup) (w w1 : State) (r : BookingRow) (e : Error) :
    body lib QueryRow w r ≠ Except.error (w1, Exit.panic e) := by
  intro h
  unfold body at h
  cases ha : assemble QueryRow r with
  | error e' => simp [ha] at h
  | ok kp =>
    obtain ⟨key, payload⟩ := kp
    simp [ha, hlib key payload] at h

theorem rowLoop_no_panic {lib : AvroLibrary}
    (hlib : ∀ key payload, (encode lib key payload).err = none) (QueryRow : Lookup) :
    ∀ (rows : List BookingRow) (arms : List Arm) (w : State) (e : Error),
      (rowLoop lib QueryRow rows arms w).2 ≠ Exit.panic e := by
  intro rows
  induction rows with
  | nil => intro arms w e; simp [rowLoop]
  | cons r rs ih =>
    intro arms w e
    unfold rowLoop iteration
    cases hb : body lib QueryRow w r with
    | error out =>
      obtain ⟨w1, ex⟩ := out
      intro hx
      simp only at hx
      subst hx
      exact body_no_panic hlib QueryRow w w1 r e hb
    | ok p =>
      obtain ⟨w1, msg⟩ := p
      cases arms with
      | nil => simp
      | cons a as =>
        simp only [List.head?_cons, List.tail_cons]
        cases hs : select w1 r msg a with
        | error out =>
          obtain ⟨w2, ex⟩ := out
          obtain ⟨-, hx, -⟩ := select_error hs
          simp [hx]
        | ok w2 => exact ih as w2 e

/-- C2: for every key and payload, `encode` under the two fixed schemas
succeeds, the key bytes decode with the key schema to exactly `provider`,
`provider_uid`, `date` of the input key, and the payload bytes decode with the
payload schema to the null arm for each absent field and to the typed arm with
the stored value (doubles as bit patterns) for each present field; no byte is
left over. -/
theorem encode_roundtrip (key : rentalBookingKey) (payload : rentalBooking) :
    ∃ keyBB payloadBB,
      encode goavro.library key payload = ⟨some keyBB, some payloadBB, none⟩ ∧
      decodeKey keyBB = Except.ok
        (⟨[("provider", Native.string key.Provider),
           ("provider_uid", Native.string key.ProviderUID),
           ("date", Native.string key.Date)]⟩, []) ∧
      decodePayload payloadBB = Except.ok
        (⟨[("is_booked",
            if payload.IsBooked.Valid then Native.map "boolean" (Native.bool payload.IsBooked.Bool)
            else Native.nil),
           ("price",
            if payload.Price.Valid then Native.map "double" (Native.float64 payload.Price.Float64)
            else Native.nil),
           ("booked_price",
            if payload.BookedPrice.Valid then
              Native.map "double" (Native.float64 payload.BookedPrice.Float64)
            else Native.nil),
           ("price_source",
            if payload.PriceSource.Valid then
              Native.map "string" (Native.string payload.PriceSource.String)
            else Native.nil)]⟩, []) := by
  obtain ⟨kb, pb, -, -, he, dk, dp⟩ := encode_goavro key payload
  rw [structsMap_entries] at dk
  rw [ToStringMap_entries] at dp
  exact ⟨kb, pb, he, dk, dp⟩

/-- End-to-end scenario 2: the key `X`, `Y`, `2024-01-01` and the payload with
`is_booked` absent, `price` 100.5, `booked_price` absent and `price_source`
`manual` are encoded, and the bytes decode to the same key and to
`is_booked: null, price: 100.5, booked_price: null, price_source: manual`. -/
theorem encode_roundtrip_witness :
    (encode goavro.library key0 payload0).err = none ∧
    ∃ keyBB payloadBB,
      encode goavro.library key0 payload0 = ⟨some keyBB, some payloadBB, none⟩ ∧
      decodeKey keyBB = Except.ok
        (⟨[("provider", Native.string [88]), ("provider_uid", Native.string [89]),
           ("date", Native.string [50, 48, 50, 52, 45, 48, 49, 45, 48, 49])]⟩, []) ∧
      decodePayload payloadBB = Except.ok
        (⟨[("is_booked", Native.nil),
           ("price", Native.map "double" (Native.float64 0x4059200000000000)),
           ("booked_price", Native.nil),
           ("price_source", Native.map "string" (Native.string [109, 97, 110, 117, 97, 108]))]⟩,
         []) :=
  ⟨by decide, encode_roundtrip key0 payload0⟩

/-- C10: both fixed schemas construct; for every key and every payload the map
of the key and the map of `ToStringMap` encode under their schemas and `encode`
returns both byte results and no error; so no run of the row loop leaves it
through the panic after `encode`. -/
theorem encode_total (key : rentalBookingKey) (payload : rentalBooking) :
    goavro.NewCodec rentalBookingSchema = Except.ok ⟨rentalBookingSchema⟩ ∧
    goavro.NewCodec rentalBookingKeySchema = Except.ok ⟨rentalBookingKeySchema⟩ ∧
    (∃ keyBB payloadBB,
      goavro.BinaryFromNative ⟨rentalBookingKeySchema⟩ (structs.Map key) = Except.ok keyBB ∧
      goavro.BinaryFromNative ⟨rentalBookingSchema⟩ payload.ToStringMap = Except.ok payloadBB ∧
      encode goavro.library key payload = ⟨some keyBB, some payloadBB, none⟩) ∧
    (∀ (QueryRow : Lookup) (rows : List BookingRow) (arms : List Arm) (w : State) (e : Error),
      (rowLoop goavro.library QueryRow rows arms w).2 ≠ Exit.panic e) := by
  obtain ⟨kb, pb, ek, ep, he, -, -⟩ := encode_goavro key payload
  refine ⟨newCodec_payload, newCodec_key, ⟨kb, pb, ek, ep, he⟩, ?_⟩
  intro QueryRow rows arms w e
  refine rowLoop_no_panic ?_ QueryRow rows arms w e
  intro k p
  obtain ⟨_, _, -, -, hkp, -, -⟩ := encode_goavro k p
  rw [hkp]

/-- A key of three empty strings and a payload of present zero values are
encoded to three zero lengths and to four typed arms. -/
theorem encode_zero_values :
    encode goavro.library ⟨[], [], []⟩ ⟨⟨false, true⟩, ⟨0, true⟩, ⟨0, true⟩, ⟨[], true⟩⟩
      = ⟨some [0, 0, 0],
         some [2, 0, 2, 0, 0, 0, 0, 0, 0, 0, 0, 2, 0, 0, 0, 0, 0, 0, 0, 0, 2, 0], none⟩ := by
  decide

end Pg2Kafka
